import Mathlib

/-!
Shallow embedding of the extended-mix pipeline of `src/server/audioProcessor.py`
and the metadata analyzer of `src/server/utils.py`.

Modelling conventions:
* An audio buffer (`pydub.AudioSegment`) is a list of integer PCM samples at
  one sample per millisecond, so `length` is the duration in milliseconds and
  python slicing `seg[s:e]` (millisecond slicing) is `sliceMs`.
* Floating-point amplitude arithmetic (decibel gain factors, fade ramps,
  crossfade gain curves) is not representable in the integer domain; those
  operations keep the millisecond structure of the buffer and the embedding
  records which operation was applied to which stem in an event trace.
* External collaborators (librosa/madmom beat detection, Spleeter separation,
  container decode) are inputs: their results are parameters of the pipeline
  functions, mirroring the values the python code receives from them.
* `random.SystemRandom.shuffle` draws entropy from the OS.  The embedding
  threads the entropy as an explicit stream `draws : Nat -> Nat`; python's
  Fisher-Yates shuffle (swap index `j = randbelow(i+1)`) is `fisherYates`,
  with `draws t % (i+1)` standing for the in-range draw `randbelow(i+1)`.
-/

/-- One decoded PCM buffer, one integer sample per millisecond. -/
abbrev AudioSeg := List Int

/-- Python / pydub millisecond slicing `seg[s:e]` for natural indices:
elements with index in `[s, e)`, clipped to the buffer. -/
def sliceMs (seg : AudioSeg) (s e : Nat) : AudioSeg :=
  (seg.drop s).take (e - s)

/-- `audioop.rms` as used by `pydub.AudioSegment.rms`: the integer square root
of the mean of the squared samples (0 for an empty fragment). -/
def rmsVal (seg : AudioSeg) : Nat :=
  if seg.length = 0 then 0
  else Nat.sqrt ((seg.foldl (fun a x => a + (x * x).toNat) 0) / seg.length)

-- Configuration constants (audioProcessor.py lines 38-42)
def DEFAULT_BARS_COUNT : Nat := 4
def DEFAULT_BEATS_PER_BAR : Nat := 4
def OTHER_STEM_GAIN_DB : Int := 9
def MS_PER_SECOND : Nat := 1000
def MINIMUM_BEATS_BUFFER : Nat := 8

/-- RMS of the candidate window starting at beat index `i`:
`stem[int(beats_ms[i]) : int(beats_ms[i + window])].rms` in the source. -/
def windowRms (stem : AudioSeg) (beats_ms : List Nat) (window : Nat) (i : Nat) : Nat :=
  rmsVal (sliceMs stem (beats_ms.getD i 0) (beats_ms.getD (i + window) 0))

/-- The loop state of `pick_loudest_bars`: `max_rms` starts at `-1`,
`pick_start` at `0`. -/
structure PickState where
  max_rms : Int
  pick_start : Nat
  deriving DecidableEq

/-- One iteration of the python loop body: `if rms > max_rms: max_rms, pick_start = rms, i`. -/
def pickStep (f : Nat → Nat) (st : PickState) (i : Nat) : PickState :=
  if (f i : Int) > st.max_rms then { max_rms := (f i : Int), pick_start := i } else st

/-- The forward scan `for i in range(n): ...` of `pick_loudest_bars`. -/
def scanArgmax (f : Nat → Nat) (n : Nat) : PickState :=
  (List.range n).foldl (pickStep f) { max_rms := -1, pick_start := 0 }

/-- `pick_loudest_bars` (audioProcessor.py lines 157-183).  The beat grid
`beats_ms` is the millisecond-domain grid; the python `int(...)` coercions are
the identity on these natural-number timestamps. -/
def pick_loudest_bars (stem : AudioSeg) (beats_ms : List Nat)
    (bars : Nat := DEFAULT_BARS_COUNT) (beats_per_bar : Nat := DEFAULT_BEATS_PER_BAR) :
    AudioSeg :=
  let total_beats := beats_ms.length
  let window := beats_per_bar * bars
  if total_beats < window + 1 then stem
  else
    let st := scanArgmax (windowRms stem beats_ms window) (total_beats - window)
    sliceMs stem (beats_ms.getD st.pick_start 0) (beats_ms.getD (st.pick_start + window) 0)

/-- The four stem roles produced by the Spleeter 4-stems separation. -/
inductive Role
  | vocals
  | drums
  | bass
  | other
  deriving DecidableEq

/-- The spec's error taxonomy for the two failure paths of
`create_extended_mix`: the explicit `return False` after the beat-count
warning (`InsufficientBeatsError`), and the generic exception handler that
catches, among others, the pydub crossfade `ValueError` (`AssemblyError`). -/
inductive MixError
  | insufficientBeats
  | assemblyError
  deriving DecidableEq

/-- The observable side effects of a pipeline run, in source order. -/
inductive Event
  | beatDetect
  | separation
  | stemLoad (r : Role)
  | gain (r : Role) (db : Int)
  | windowSelect (r : Role)
  | shuffle
  | mixConcat
  | fadeIn (ms : Nat)
  | crossfade (ms : Nat)
  | exportAudio (path : String)
  | metadataWrite
  deriving DecidableEq

/-- The data a successful `create_extended_mix` run holds when it exports:
the parsed version, the local `shuffled_intro_order`, the final buffer and
the export format string `os.path.splitext(output_path)[1][1:]`. -/
structure MixOut where
  version : Int
  order : List Role
  audio : AudioSeg
  exportFormat : String
  deriving DecidableEq

/-- Swap the elements at positions `i` and `j` (python `x[i], x[j] = x[j], x[i]`);
identity when either index is out of range. -/
def listSwap {α : Type} (l : List α) (i j : Nat) : List α :=
  match l.get? i, l.get? j with
  | some a, some b => (l.set i b).set j a
  | _, _ => l

/-- `random.shuffle` (Fisher-Yates, as run by `random.SystemRandom.shuffle`):
`for i in reversed(range(1, len(x))): j = randbelow(i+1); swap x[i], x[j]`.
The entropy stream `draws` supplies the draw for step `t` (`i = n-1-t`);
`draws t % (i+1)` is the in-range value `randbelow(i+1)` returned by the OS
entropy source. -/
def fisherYates {α : Type} (l : List α) (draws : Nat → Nat) : List α :=
  let n := l.length
  (List.range (n - 1)).foldl
    (fun acc t =>
      let i := n - 1 - t
      let j := draws t % (i + 1)
      listSwap acc i j) l

/-- python `os.path.splitext(p)[1][1:]`: the extension of the last path
component after its last dot, empty when there is no dot or when every
character before the last dot is itself a dot (leading-dot files). -/
def splitextExt (p : String) : String :=
  let base := (p.splitOn "/").getLastD ""
  let parts := base.splitOn "."
  match parts with
  | [] => ""
  | [_] => ""
  | ps => if ps.dropLast.all (fun s => s.isEmpty) then "" else ps.getLastD ""

/-- Version parsing of `create_extended_mix` (audioProcessor.py lines 212-217):
`version = 1; if "_v" in output_path: try: version = int(output_path.split("_v")[-1].split(".")[0]) except: pass`.
`String.toInt?` models python `int()` on plain (optionally negative) decimal
numerals, the only shapes a `_vN` suffix produces. -/
def parse_version (output_path : String) : Int :=
  let parts := output_path.splitOn "_v"
  if parts.length > 1 then
    match ((parts.getLastD "").splitOn ".").headD "" |>.toInt? with
    | some v => v
    | none => 1
  else 1

/-- `pydub.AudioSegment.apply_gain`: scales the raw PCM samples by the float
factor `10^(db/20)` with saturation.  The amplitude arithmetic is
float-domain and outside this integer embedding; the embedding keeps the
millisecond structure of the buffer (pydub gain preserves duration) and
records the applied decibel value in the event trace (`Event.gain`). -/
def apply_gain (db : Int) (seg : AudioSeg) : AudioSeg :=
  let _ := db
  seg

/-- `pydub.AudioSegment.fade_in(ms)`: a float-domain amplitude ramp over the
first `ms` milliseconds; duration-preserving.  The ramp arithmetic is outside
the integer embedding; the trace records `Event.fadeIn ms`. -/
def fade_in (seg : AudioSeg) (ms : Nat) : AudioSeg :=
  let _ := ms
  seg

/-- python `sum(intro_components)`: pydub `+` is an append with zero
crossfade, i.e. concatenation of the raw buffers (`0 + seg` returns `seg`). -/
def concatAll (segs : List AudioSeg) : AudioSeg :=
  segs.foldl (fun a b => a ++ b) []

/-- The sample-level blend of the two overlapping crossfade regions; the
complementary fade gain curves are float-domain, the blend is their sum. -/
def blendSample (a b : Int) : Int := a + b

/-- `pydub.AudioSegment.append(seg, crossfade)`: raises `ValueError` when the
crossfade is longer than either buffer (mapped to `AssemblyError` by the
generic exception handler of `create_extended_mix`); otherwise the final
`cf` ms of the first buffer are blended with the first `cf` ms of the second,
so the duration is `len(a) + len(b) - cf`. -/
def crossfadeAppend (a b : AudioSeg) (cf : Nat) : Except MixError AudioSeg :=
  if a.length < cf then .error .assemblyError
  else if b.length < cf then .error .assemblyError
  else .ok (a.take (a.length - cf) ++
    List.zipWith blendSample (a.drop (a.length - cf)) (b.take cf) ++
    b.drop cf)

/-- Lines 219-238 of audioProcessor.py: load the three stems (applying the
`other` gain at load time), select each stem's loudest intro window, zip the
fixed label multiset `['drums', 'other', 'drums', 'vocals']` with the
segments and shuffle the zipped pairs with the secure generator. -/
def shuffledIntro (components : Role → AudioSeg) (intro_bars : Nat)
    (beat_times_ms : List Nat) (draws : Nat → Nat) : List (Role × AudioSeg) :=
  let drums := components .drums
  let other := apply_gain OTHER_STEM_GAIN_DB (components .other)
  let vocals := components .vocals
  let full_intro_drums := pick_loudest_bars drums beat_times_ms intro_bars
  let full_intro_other := pick_loudest_bars other beat_times_ms intro_bars
  let intro_vocals := pick_loudest_bars vocals beat_times_ms intro_bars
  let intro_labels : List Role := [.drums, .other, .drums, .vocals]
  let intro_segments := [full_intro_drums, full_intro_other, full_intro_drums, intro_vocals]
  let intro_zipped := intro_labels.zip intro_segments
  fisherYates intro_zipped draws

/-- The events of the intro-assembly block (lines 219-241), in source order:
three stem loads with the gain on `other` at load time, three window
selections, the shuffle, the `sum(...)` concatenation and the fade-in. -/
def introEvents : List Event :=
  [.stemLoad .drums, .stemLoad .other, .gain .other OTHER_STEM_GAIN_DB,
   .stemLoad .vocals, .windowSelect .drums, .windowSelect .other,
   .windowSelect .vocals, .shuffle, .mixConcat, .fadeIn 2000]

/-- `create_extended_mix` (audioProcessor.py lines 185-253).
`components` holds the decoded stem buffers the python code loads from the
Spleeter output paths; `beat_times_ms` is the millisecond grid
`[t * 1000 for t in beat_times]` (the seconds-to-ms float multiply of line
223 happens in the float domain); `draws` is the OS entropy stream consumed
by the module-level `secure_random` generator.  Returns the side-effect
trace together with the boolean outcome of the python function refined into
`Except MixError MixOut` (`False` after the beat warning is
`insufficientBeats`; `False` from the exception handler is
`assemblyError`). -/
def create_extended_mix (components : Role → AudioSeg) (output_path : String)
    (intro_bars outro_bars : Nat) ( _preserve_vocals : Bool) ( _tempo : Nat)
    (beat_times_ms : List Nat) (main_song : AudioSeg) (draws : Nat → Nat) :
    List Event × Except MixError MixOut :=
  let beats_per_bar := DEFAULT_BEATS_PER_BAR
  let intro_beats := intro_bars * beats_per_bar
  let outro_beats := outro_bars * beats_per_bar
  if beat_times_ms.length < intro_beats + outro_beats + MINIMUM_BEATS_BUFFER then
    ([], .error .insufficientBeats)
  else
    let version := parse_version output_path
    let shuffled := shuffledIntro components intro_bars beat_times_ms draws
    let intro_components := shuffled.map (fun p => p.2)
    let shuffled_intro_order := shuffled.map (fun p => p.1)
    let full_intro := fade_in (concatAll intro_components) 2000
    match crossfadeAppend full_intro main_song 500 with
    | .error e => (introEvents, .error e)
    | .ok extended_mix =>
        (introEvents ++ [.crossfade 500, .exportAudio output_path],
         .ok { version := version, order := shuffled_intro_order,
               audio := extended_mix, exportFormat := splitextExt output_path })

/-- `process_audio` (audioProcessor.py lines 256-308).  The collaborators are
inputs: `detect` is the result of `detect_tempo_and_beats` (`none` when it
returned `(None, None)`, otherwise the tempo and the millisecond beat grid)
and `sep` the result of `separate_audio_components` (`none` on failure,
otherwise the stem map and the decoded main song).  Returns the side-effect
trace and the boolean the python function returns. -/
def process_audio (detect : Option (Nat × List Nat))
    (sep : Option ((Role → AudioSeg) × AudioSeg))
    (output_path : String) (intro_bars outro_bars : Nat)
    (preserve_vocals : Bool) ( _beat_detection : String) (draws : Nat → Nat) :
    List Event × Bool :=
  match detect with
  | none => ([.beatDetect], false)
  | some (tempo, beat_times_ms) =>
    if beat_times_ms.length = 0 then ([.beatDetect], false)
    else
      match sep with
      | none => ([.beatDetect, .separation], false)
      | some (components, main_song) =>
        let r := create_extended_mix components output_path intro_bars outro_bars
          preserve_vocals tempo beat_times_ms main_song draws
        ([.beatDetect, .separation] ++ r.1, r.2.isOk)

/-- The metadata record `analyze_audio_file` returns: exactly the keys
`format`, `duration`, `bpm`, `key`, `bitrate` (utils.py lines 181-187). -/
structure AudioInfo where
  format : String
  duration : Nat
  bpm : Nat
  key : String
  bitrate : Nat
  deriving DecidableEq

/-- The values the primary (librosa + pydub) analysis path of
`analyze_audio_file` computes when none of its calls raises:
`int(duration)`, `int(bitrate)`, `int(round(tempo))` and the detected key. -/
structure PrimaryData where
  duration : Nat
  bitrate : Nat
  bpm : Nat
  key : String
  deriving DecidableEq

/-- The values the pydub fallback path reads when `AudioSegment.from_file`
succeeds: `len(audio)` in milliseconds and the frame-derived bitrate. -/
structure FallbackData where
  lengthMs : Nat
  bitrate : Nat
  deriving DecidableEq

/-- `get_audio_format` (utils.py line 67): `path.splitext(file_path)[1][1:].lower()`. -/
def get_audio_format (file_path : String) : String :=
  (splitextExt file_path).toLower

/-- `fallback_audio_analysis` (utils.py lines 197-227).  `fb` is `some` of
the pydub-read data when `AudioSegment.from_file` succeeds, `none` when it
raises (the second `except` branch). -/
def fallback_audio_analysis (file_path : String) (fb : Option FallbackData) : AudioInfo :=
  match fb with
  | some a =>
      { format := get_audio_format file_path, duration := a.lengthMs / 1000,
        bpm := 0, key := "Unknown", bitrate := a.bitrate }
  | none =>
      { format := get_audio_format file_path, duration := 0,
        bpm := 0, key := "Unknown", bitrate := 0 }

/-- `analyze_audio_file` (utils.py lines 157-194).  `primary` is `some` of
the librosa/pydub analysis results when the primary path raises no
exception, `none` when any of its calls raises (the `except` falls through
to `fallback_audio_analysis`). -/
def analyze_audio_file (file_path : String) (primary : Option PrimaryData)
    (fb : Option FallbackData) : AudioInfo :=
  match primary with
  | some p =>
      { format := get_audio_format file_path, duration := p.duration,
        bpm := p.bpm, key := p.key, bitrate := p.bitrate }
  | none => fallback_audio_analysis file_path fb

/-!
Concrete inputs used by the executable witnesses and counterexamples.
-/

/-- A stem map of 600 ms silent buffers. -/
def wStems : Role → AudioSeg := fun _ => List.replicate 600 0

/-- A 12-beat millisecond grid at 50 ms spacing: `[0, 50, ..., 550]`. -/
def wGrid : List Nat := (List.range 12).map (fun i => i * 50)

/-- An 11-beat grid (one below the 12-beat threshold of
`intro_bars = 1, outro_bars = 0`). -/
def wGridShort : List Nat := (List.range 11).map (fun i => i * 50)

/-- A 7-beat grid (below the minimal 8-beat threshold). -/
def wGridTiny : List Nat := (List.range 7).map (fun i => i * 50)

/-- A 600 ms silent main track. -/
def wMain : AudioSeg := List.replicate 600 0

/-- An entropy stream that always draws 0 (every Fisher-Yates step swaps
with position 0). -/
def wDrawsZero : Nat → Nat := fun _ => 0

/-- An entropy stream that draws `i` at each Fisher-Yates step `i`
(every swap is with itself: the identity permutation). -/
def wDrawsId : Nat → Nat := fun t => 3 - t

theorem scanArgmax_succ (f : Nat → Nat) (n : Nat) :
    scanArgmax f (n + 1) = pickStep f (scanArgmax f n) n := by
  unfold scanArgmax
  rw [List.range_succ, List.foldl_append]
  rfl

/-- The scan keeps the first index attaining the maximum: after scanning
`[0, n)` (`n ≥ 1`), `pick_start` is in range, `max_rms` is its value, every
candidate is `≤ max_rms`, and every earlier candidate is strictly below. -/
theorem scanArgmax_spec (f : Nat → Nat) :
    ∀ n, 1 ≤ n →
      (scanArgmax f n).pick_start < n ∧
      (scanArgmax f n).max_rms = (f (scanArgmax f n).pick_start : Int) ∧
      (∀ j, j < n → (f j : Int) ≤ (scanArgmax f n).max_rms) ∧
      (∀ j, j < (scanArgmax f n).pick_start → (f j : Int) < (scanArgmax f n).max_rms) := by
  intro n
  induction n with
  | zero => omega
  | succ m ih =>
    intro _
    rw [scanArgmax_succ]
    by_cases hm : 1 ≤ m
    · obtain ⟨h1, h2, h3, h4⟩ := ih hm
      unfold pickStep
      by_cases hc : (f m : Int) > (scanArgmax f m).max_rms
      · rw [if_pos hc]
        dsimp only
        refine ⟨by omega, rfl, ?_, ?_⟩
        · intro j hj
          rcases Nat.lt_succ_iff_lt_or_eq.mp hj with hj' | hj'
          · exact le_of_lt (lt_of_le_of_lt (h3 j hj') hc)
          · subst hj'; exact le_refl _
        · intro j hj
          exact lt_of_le_of_lt (h3 j hj) hc
      · rw [if_neg hc]
        refine ⟨by omega, h2, ?_, h4⟩
        intro j hj
        rcases Nat.lt_succ_iff_lt_or_eq.mp hj with hj' | hj'
        · exact h3 j hj'
        · subst hj'; exact le_of_not_lt hc
    · have hm0 : m = 0 := by omega
      subst hm0
      have hbase : scanArgmax f 0 = { max_rms := -1, pick_start := 0 } := rfl
      rw [hbase]
      unfold pickStep
      have hpos : ((f 0 : Int) > (-1 : Int)) := by
        have : (0 : Int) ≤ (f 0 : Int) := Int.ofNat_nonneg _
        omega
      rw [if_pos hpos]
      dsimp only
      refine ⟨by omega, rfl, ?_, ?_⟩
      · intro j hj
        have : j = 0 := by omega
        subst this; exact le_refl _
      · intro j hj
        omega

theorem getD_eq_get (l : List Nat) (i : Nat) (h : i < l.length) :
    l.getD i 0 = l.get ⟨i, h⟩ := by
  rw [List.getD_eq_getElem?_getD, List.getElem?_eq_getElem h]
  rfl

theorem sorted_getD_mono {l : List Nat} (hs : l.Sorted (· ≤ ·)) {i j : Nat}
    (hij : i ≤ j) (hj : j < l.length) : l.getD i 0 ≤ l.getD j 0 := by
  have hi : i < l.length := lt_of_le_of_lt hij hj
  rw [getD_eq_get l i hi, getD_eq_get l j hj]
  rcases eq_or_lt_of_le hij with he | hlt
  · subst he
    exact le_refl _
  · exact hs.rel_get_of_lt hlt

/-- Claim C2: with `totalBeats ≥ W + 1`, the selector returns the window at
the first index attaining the maximal window RMS, and no later tie replaces
it. -/
theorem pick_loudest_bars_first_max (stem : AudioSeg) (beats_ms : List Nat)
    (bars beats_per_bar : Nat)
    (h : beats_per_bar * bars + 1 ≤ beats_ms.length) :
    ∃ i0,
      i0 < beats_ms.length - beats_per_bar * bars ∧
      pick_loudest_bars stem beats_ms bars beats_per_bar =
        sliceMs stem (beats_ms.getD i0 0) (beats_ms.getD (i0 + beats_per_bar * bars) 0) ∧
      (∀ j, j < beats_ms.length - beats_per_bar * bars →
        windowRms stem beats_ms (beats_per_bar * bars) j ≤
          windowRms stem beats_ms (beats_per_bar * bars) i0) ∧
      (∀ j, j < i0 →
        windowRms stem beats_ms (beats_per_bar * bars) j <
          windowRms stem beats_ms (beats_per_bar * bars) i0) := by
  have hn : 1 ≤ beats_ms.length - beats_per_bar * bars := by omega
  obtain ⟨h1, h2, h3, h4⟩ :=
    scanArgmax_spec (windowRms stem beats_ms (beats_per_bar * bars))
      (beats_ms.length - beats_per_bar * bars) hn
  refine ⟨_, h1, ?_, ?_, ?_⟩
  · simp only [pick_loudest_bars]
    rw [if_neg (by omega)]
  · intro j hj
    have := h3 j hj
    rw [h2] at this
    exact_mod_cast this
  · intro j hj
    have := h4 j hj
    rw [h2] at this
    exact_mod_cast this

/-- Witness for claim C2 at `stem = [3,3,0,0,5,5]`, grid `[0,2,4,6]`,
`bars = beatsPerBar = 1`. -/
theorem pick_loudest_bars_first_max_witness :
    (1 * 1 + 1 ≤ ([0, 2, 4, 6] : List Nat).length) ∧
    (∃ i0,
      i0 < ([0, 2, 4, 6] : List Nat).length - 1 * 1 ∧
      pick_loudest_bars [3, 3, 0, 0, 5, 5] [0, 2, 4, 6] 1 1 =
        sliceMs [3, 3, 0, 0, 5, 5] (([0, 2, 4, 6] : List Nat).getD i0 0)
          (([0, 2, 4, 6] : List Nat).getD (i0 + 1 * 1) 0) ∧
      (∀ j, j < ([0, 2, 4, 6] : List Nat).length - 1 * 1 →
        windowRms [3, 3, 0, 0, 5, 5] [0, 2, 4, 6] (1 * 1) j ≤
          windowRms [3, 3, 0, 0, 5, 5] [0, 2, 4, 6] (1 * 1) i0) ∧
      (∀ j, j < i0 →
        windowRms [3, 3, 0, 0, 5, 5] [0, 2, 4, 6] (1 * 1) j <
          windowRms [3, 3, 0, 0, 5, 5] [0, 2, 4, 6] (1 * 1) i0)) :=
  ⟨by decide, pick_loudest_bars_first_max [3, 3, 0, 0, 5, 5] [0, 2, 4, 6] 1 1 (by decide)⟩

/-- Claim C3: with `totalBeats < W + 1` the selector is the identity on the
stem buffer. -/
theorem pick_loudest_bars_short_id (stem : AudioSeg) (beats_ms : List Nat)
    (bars beats_per_bar : Nat)
    (h : beats_ms.length < beats_per_bar * bars + 1) :
    pick_loudest_bars stem beats_ms bars beats_per_bar = stem := by
  simp only [pick_loudest_bars]
  rw [if_pos h]

/-- Witness for claim C3: a 2-beat grid cannot host a 4-beat window. -/
theorem pick_loudest_bars_short_id_witness :
    (([0, 50] : List Nat).length < 4 * 1 + 1) ∧
    pick_loudest_bars [1, 2] [0, 50] 1 4 = [1, 2] :=
  ⟨by decide, pick_loudest_bars_short_id [1, 2] [0, 50] 1 4 (by decide)⟩

/-- Counterexample to claim C4 as stated: a 1 ms stem with the 5-beat grid
`[0,10,20,30,40]` and `W = 4`.  The only candidate start index is `i = 0`
whose window should last `40` ms, but the python slice is clipped at the end
of the buffer and the selector returns a 1 ms segment. -/
theorem pick_window_length_cex :
    ¬ ∃ i0, i0 < ([0, 10, 20, 30, 40] : List Nat).length - 4 * 1 ∧
      (pick_loudest_bars [1] [0, 10, 20, 30, 40] 1 4).length =
        ([0, 10, 20, 30, 40] : List Nat).getD (i0 + 4 * 1) 0 -
          ([0, 10, 20, 30, 40] : List Nat).getD i0 0 := by
  rintro ⟨i0, hi, he⟩
  have h0 : i0 = 0 := by
    simp only [List.length_cons, List.length_nil] at hi
    omega
  subst h0
  exact absurd he (by decide)

/-- Claim C4 (amended): when additionally the grid is non-decreasing (the
BeatGrid invariant) and every beat timestamp lies within the stem's
duration, the selected segment lasts exactly `grid[i+W] - grid[i]` ms for
some valid start index `i`. -/
theorem pick_loudest_bars_window_length (stem : AudioSeg) (beats_ms : List Nat)
    (bars beats_per_bar : Nat)
    (h : beats_per_bar * bars + 1 ≤ beats_ms.length)
    (hs : beats_ms.Sorted (· ≤ ·))
    (hb : ∀ x ∈ beats_ms, x ≤ stem.length) :
    ∃ i0, i0 < beats_ms.length - beats_per_bar * bars ∧
      (pick_loudest_bars stem beats_ms bars beats_per_bar).length =
        beats_ms.getD (i0 + beats_per_bar * bars) 0 - beats_ms.getD i0 0 := by
  have hn : 1 ≤ beats_ms.length - beats_per_bar * bars := by omega
  obtain ⟨h1, _, _, _⟩ :=
    scanArgmax_spec (windowRms stem beats_ms (beats_per_bar * bars))
      (beats_ms.length - beats_per_bar * bars) hn
  refine ⟨_, h1, ?_⟩
  have heq : pick_loudest_bars stem beats_ms bars beats_per_bar =
      sliceMs stem
        (beats_ms.getD (scanArgmax (windowRms stem beats_ms (beats_per_bar * bars))
          (beats_ms.length - beats_per_bar * bars)).pick_start 0)
        (beats_ms.getD ((scanArgmax (windowRms stem beats_ms (beats_per_bar * bars))
          (beats_ms.length - beats_per_bar * bars)).pick_start + beats_per_bar * bars) 0) := by
    simp only [pick_loudest_bars]
    rw [if_neg (by omega)]
  rw [heq]
  have hpW : (scanArgmax (windowRms stem beats_ms (beats_per_bar * bars))
      (beats_ms.length - beats_per_bar * bars)).pick_start + beats_per_bar * bars <
      beats_ms.length := by omega
  have hse := sorted_getD_mono hs (Nat.le_add_right _ (beats_per_bar * bars)) hpW
  have hel : beats_ms.getD ((scanArgmax (windowRms stem beats_ms (beats_per_bar * bars))
      (beats_ms.length - beats_per_bar * bars)).pick_start + beats_per_bar * bars) 0 ≤
      stem.length := by
    rw [getD_eq_get _ _ hpW]
    exact hb _ (beats_ms.get_mem _ _)
  simp only [sliceMs, List.length_take, List.length_drop]
  omega

/-- Witness for the amended claim C4 at a 5 ms stem and grid `[0,2,4]`. -/
theorem pick_loudest_bars_window_length_witness :
    (1 * 1 + 1 ≤ ([0, 2, 4] : List Nat).length) ∧
    ([0, 2, 4] : List Nat).Sorted (· ≤ ·) ∧
    (∀ x ∈ ([0, 2, 4] : List Nat), x ≤ (List.replicate 5 (1 : Int)).length) ∧
    (∃ i0, i0 < ([0, 2, 4] : List Nat).length - 1 * 1 ∧
      (pick_loudest_bars (List.replicate 5 1) [0, 2, 4] 1 1).length =
        ([0, 2, 4] : List Nat).getD (i0 + 1 * 1) 0 - ([0, 2, 4] : List Nat).getD i0 0) :=
  ⟨by decide, by decide, by decide,
    pick_loudest_bars_window_length (List.replicate 5 1) [0, 2, 4] 1 1
      (by decide) (by decide) (by decide)⟩

theorem crossfadeAppend_error_kind (a b : AudioSeg) (cf : Nat) (e : MixError)
    (h : crossfadeAppend a b cf = .error e) : e = .assemblyError := by
  unfold crossfadeAppend at h
  split at h
  · exact (Except.error.inj h).symm
  · split at h
    · exact (Except.error.inj h).symm
    · simp at h

/-- When the beat-count check passes, the trace of `create_extended_mix` is
the intro-assembly events, followed (on crossfade success) by the crossfade
and the export. -/
theorem create_trace_cases (components : Role → AudioSeg) (output_path : String)
    (ib ob : Nat) (pv : Bool) (tempo : Nat) (grid : List Nat) (main : AudioSeg)
    (d : Nat → Nat)
    (h : ¬ grid.length <
      ib * DEFAULT_BEATS_PER_BAR + ob * DEFAULT_BEATS_PER_BAR + MINIMUM_BEATS_BUFFER) :
    (create_extended_mix components output_path ib ob pv tempo grid main d).1 =
      introEvents ∨
    (create_extended_mix components output_path ib ob pv tempo grid main d).1 =
      introEvents ++ [Event.crossfade 500, Event.exportAudio output_path] := by
  simp only [create_extended_mix]
  rw [if_neg h]
  split
  · left; rfl
  · right; rfl

/-- Claim C5: a beat grid one below `introBeats + outroBeats +
MINIMUM_BEATS_BUFFER` fails with the insufficient-beats error and exports
nothing, while a grid exactly at the threshold passes the beat-count check
(its outcome is never the insufficient-beats error). -/
theorem beats_threshold_boundary (components : Role → AudioSeg) (output_path : String)
    (ib ob : Nat) (pv : Bool) (tempo : Nat) (g1 g2 : List Nat) (main : AudioSeg)
    (d : Nat → Nat)
    (h1 : g1.length =
      ib * DEFAULT_BEATS_PER_BAR + ob * DEFAULT_BEATS_PER_BAR + MINIMUM_BEATS_BUFFER - 1)
    (h2 : g2.length =
      ib * DEFAULT_BEATS_PER_BAR + ob * DEFAULT_BEATS_PER_BAR + MINIMUM_BEATS_BUFFER) :
    (create_extended_mix components output_path ib ob pv tempo g1 main d).2 =
      .error .insufficientBeats ∧
    (∀ p, Event.exportAudio p ∉
      (create_extended_mix components output_path ib ob pv tempo g1 main d).1) ∧
    (create_extended_mix components output_path ib ob pv tempo g2 main d).2 ≠
      .error .insufficientBeats := by
  have hbuf : 1 ≤ MINIMUM_BEATS_BUFFER := by decide
  refine ⟨?_, ?_, ?_⟩
  · simp only [create_extended_mix]
    rw [if_pos (by omega)]
  · simp only [create_extended_mix]
    rw [if_pos (by omega)]
    intro p
    simp
  · simp only [create_extended_mix]
    rw [if_neg (by omega)]
    split
    · rename_i e heq
      have he := crossfadeAppend_error_kind _ _ _ _ heq
      subst he
      simp
    · simp

/-- Witness for claim C5: `intro_bars = 1`, `outro_bars = 0`, threshold 12;
an 11-beat grid fails, the 12-beat grid passes the check. -/
theorem beats_threshold_boundary_witness :
    (wGridShort.length =
      1 * DEFAULT_BEATS_PER_BAR + 0 * DEFAULT_BEATS_PER_BAR + MINIMUM_BEATS_BUFFER - 1) ∧
    (wGrid.length =
      1 * DEFAULT_BEATS_PER_BAR + 0 * DEFAULT_BEATS_PER_BAR + MINIMUM_BEATS_BUFFER) ∧
    ((create_extended_mix wStems "out.mp3" 1 0 true 120 wGridShort wMain wDrawsZero).2 =
      .error .insufficientBeats ∧
    (∀ p, Event.exportAudio p ∉
      (create_extended_mix wStems "out.mp3" 1 0 true 120 wGridShort wMain wDrawsZero).1) ∧
    (create_extended_mix wStems "out.mp3" 1 0 true 120 wGrid wMain wDrawsZero).2 ≠
      .error .insufficientBeats) :=
  ⟨by decide, by decide,
    beats_threshold_boundary wStems "out.mp3" 1 0 true 120 wGridShort wGrid wMain
      wDrawsZero (by decide) (by decide)⟩

/-- Claim C7: for buffers each longer than the 500 ms crossfade, the splice
succeeds and the output duration is exactly `introDuration + mainDuration - 500` ms. -/
theorem crossfade_append_duration (a b : AudioSeg)
    (ha : 500 < a.length) (hb : 500 < b.length) :
    ∃ out, crossfadeAppend a b 500 = .ok out ∧
      out.length = a.length + b.length - 500 := by
  have h1 : ¬ a.length < 500 := by omega
  have h2 : ¬ b.length < 500 := by omega
  refine ⟨_, by rw [crossfadeAppend, if_neg h1, if_neg h2], ?_⟩
  simp only [List.length_append, List.length_take, List.length_drop,
    List.length_zipWith]
  omega

set_option maxRecDepth 4000 in
/-- Witness for claim C7 at two 501 ms buffers. -/
theorem crossfade_append_duration_witness :
    (500 < (List.replicate 501 (0 : Int)).length) ∧
    (∃ out, crossfadeAppend (List.replicate 501 0) (List.replicate 501 0) 500 = .ok out ∧
      out.length =
        (List.replicate 501 (0 : Int)).length + (List.replicate 501 (0 : Int)).length - 500) :=
  ⟨by simp, crossfade_append_duration (List.replicate 501 0) (List.replicate 501 0)
      (by simp) (by simp)⟩

/-- Counterexample to claim C6 as stated: a run whose 7-beat grid is below
every intro/outro threshold aborts, yet stem separation has already
happened - the aborted run's trace contains the separation event. -/
theorem separation_runs_before_beat_check :
    (process_audio (some (120, wGridTiny)) (some (wStems, wMain)) "out.mp3" 0 0
        true "auto" wDrawsZero).2 = false ∧
    Event.separation ∈
      (process_audio (some (120, wGridTiny)) (some (wStems, wMain)) "out.mp3" 0 0
        true "auto" wDrawsZero).1 := by
  decide

/-- Claim C6 (amended): with a non-empty beat grid shorter than
`introBeats + outroBeats + MINIMUM_BEATS_BUFFER`, the job aborts before any
stem loading, gain, window selection or mixing - the only actions taken are
beat detection and the stem separation, which runs before the beat-count
check. -/
theorem insufficient_beats_stops_stem_ops (components : Role → AudioSeg)
    (main : AudioSeg) (output_path : String) (ib ob : Nat) (pv : Bool)
    (bd : String) (d : Nat → Nat) (tempo : Nat) (grid : List Nat)
    (h0 : 0 < grid.length)
    (h : grid.length <
      ib * DEFAULT_BEATS_PER_BAR + ob * DEFAULT_BEATS_PER_BAR + MINIMUM_BEATS_BUFFER) :
    process_audio (some (tempo, grid)) (some (components, main)) output_path ib ob pv bd d =
      ([Event.beatDetect, Event.separation], false) := by
  simp only [process_audio]
  rw [if_neg (by omega)]
  simp only [create_extended_mix]
  rw [if_pos h]
  rfl

/-- Witness for the amended claim C6: 7 beats against the 16-beat threshold
of one intro bar and one outro bar. -/
theorem insufficient_beats_stops_stem_ops_witness :
    (0 < wGridTiny.length) ∧
    (wGridTiny.length <
      1 * DEFAULT_BEATS_PER_BAR + 1 * DEFAULT_BEATS_PER_BAR + MINIMUM_BEATS_BUFFER) ∧
    process_audio (some (120, wGridTiny)) (some (wStems, wMain)) "out_v3.mp3" 1 1
        true "auto" wDrawsZero =
      ([Event.beatDetect, Event.separation], false) :=
  ⟨by decide, by decide,
    insufficient_beats_stops_stem_ops wStems wMain "out_v3.mp3" 1 1 true "auto"
      wDrawsZero 120 wGridTiny (by decide) (by decide)⟩

theorem gain_mem_introEvents (r : Role) (db : Int) :
    Event.gain r db ∈ introEvents → r = Role.other ∧ db = OTHER_STEM_GAIN_DB := by
  intro hm
  simp only [introEvents, List.mem_cons, List.not_mem_nil, or_false] at hm
  rcases hm with h|h|h|h|h|h|h|h|h|h <;> simp_all

/-- Claim C8: when the beat-count check passes, the only gain event of the
run is the `+9` dB gain on the `other` stem, applied at stem-load time -
within the first four (load-phase) events, before every window selection and
the mix concatenation - and the `bass` stem is neither loaded nor gained. -/
theorem gain_stage_policy (components : Role → AudioSeg) (output_path : String)
    (ib ob : Nat) (pv : Bool) (tempo : Nat) (grid : List Nat) (main : AudioSeg)
    (d : Nat → Nat)
    (h : ib * DEFAULT_BEATS_PER_BAR + ob * DEFAULT_BEATS_PER_BAR + MINIMUM_BEATS_BUFFER ≤
      grid.length) :
    (∀ r db, Event.gain r db ∈
        (create_extended_mix components output_path ib ob pv tempo grid main d).1 →
      r = Role.other ∧ db = OTHER_STEM_GAIN_DB) ∧
    Event.gain Role.other OTHER_STEM_GAIN_DB ∈
      ((create_extended_mix components output_path ib ob pv tempo grid main d).1.take 4) ∧
    (∀ r db, Event.gain r db ∉
      ((create_extended_mix components output_path ib ob pv tempo grid main d).1.drop 4)) ∧
    (∀ r, Event.windowSelect r ∉
      ((create_extended_mix components output_path ib ob pv tempo grid main d).1.take 4)) ∧
    Event.mixConcat ∉
      ((create_extended_mix components output_path ib ob pv tempo grid main d).1.take 4) ∧
    Event.stemLoad Role.bass ∉
      (create_extended_mix components output_path ib ob pv tempo grid main d).1 := by
  rcases create_trace_cases components output_path ib ob pv tempo grid main d (by omega)
    with htr | htr <;> rw [htr] <;> refine ⟨?_, ?_, ?_, ?_, ?_, ?_⟩
  · intro r db hm
    exact gain_mem_introEvents r db hm
  · simp [introEvents]
  · intro r db
    simp [introEvents]
  · intro r
    simp [introEvents]
  · simp [introEvents]
  · simp [introEvents]
  · intro r db hm
    simp only [List.mem_append] at hm
    rcases hm with hm | hm
    · exact gain_mem_introEvents r db hm
    · simp at hm
  · rw [List.take_append_of_le_length (by simp [introEvents])]
    simp [introEvents]
  · intro r db
    rw [List.drop_append_of_le_length (by simp [introEvents])]
    simp [introEvents]
  · intro r
    rw [List.take_append_of_le_length (by simp [introEvents])]
    simp [introEvents]
  · rw [List.take_append_of_le_length (by simp [introEvents])]
    simp [introEvents]
  · simp [introEvents]

/-- Witness for claim C8 at the concrete 12-beat run. -/
theorem gain_stage_policy_witness :
    (1 * DEFAULT_BEATS_PER_BAR + 0 * DEFAULT_BEATS_PER_BAR + MINIMUM_BEATS_BUFFER ≤
      wGrid.length) ∧
    ((∀ r db, Event.gain r db ∈
        (create_extended_mix wStems "out.mp3" 1 0 true 120 wGrid wMain wDrawsZero).1 →
      r = Role.other ∧ db = OTHER_STEM_GAIN_DB) ∧
    Event.gain Role.other OTHER_STEM_GAIN_DB ∈
      ((create_extended_mix wStems "out.mp3" 1 0 true 120 wGrid wMain wDrawsZero).1.take 4) ∧
    (∀ r db, Event.gain r db ∉
      ((create_extended_mix wStems "out.mp3" 1 0 true 120 wGrid wMain wDrawsZero).1.drop 4)) ∧
    (∀ r, Event.windowSelect r ∉
      ((create_extended_mix wStems "out.mp3" 1 0 true 120 wGrid wMain wDrawsZero).1.take 4)) ∧
    Event.mixConcat ∉
      ((create_extended_mix wStems "out.mp3" 1 0 true 120 wGrid wMain wDrawsZero).1.take 4) ∧
    Event.stemLoad Role.bass ∉
      (create_extended_mix wStems "out.mp3" 1 0 true 120 wGrid wMain wDrawsZero).1) :=
  ⟨by decide,
    gain_stage_policy wStems "out.mp3" 1 0 true 120 wGrid wMain wDrawsZero (by decide)⟩

set_option maxRecDepth 40000 in
/-- Claim C9 (code bug): on a successful concrete run the only emitted
artifact is the audio export; no metadata record (shuffle order, window
offsets, tempo) is written, although the module docstring
(audioProcessor.py line 17) promises `shuffle_info.json`. -/
theorem no_metadata_emitted :
    (create_extended_mix wStems "mix_v2.mp3" 1 0 true 120 wGrid wMain wDrawsZero).2.isOk
      = true ∧
    Event.exportAudio "mix_v2.mp3" ∈
      (create_extended_mix wStems "mix_v2.mp3" 1 0 true 120 wGrid wMain wDrawsZero).1 ∧
    Event.metadataWrite ∉
      (create_extended_mix wStems "mix_v2.mp3" 1 0 true 120 wGrid wMain wDrawsZero).1 := by
  decide

set_option maxRecDepth 40000 in
/-- Counterexample to claim C1 as stated: two runs with the same
version-carrying output name `mix_v2.mp3` and the same stems, grid and main
track, but different OS entropy draws, both succeed and produce different
ShuffleOrder permutations - the version-derived value seeds nothing. -/
theorem shuffle_same_version_differs :
    (create_extended_mix wStems "mix_v2.mp3" 1 0 true 120 wGrid wMain wDrawsZero).2.isOk
      = true ∧
    (create_extended_mix wStems "mix_v2.mp3" 1 0 true 120 wGrid wMain wDrawsId).2.isOk
      = true ∧
    (create_extended_mix wStems "mix_v2.mp3" 1 0 true 120 wGrid wMain
        wDrawsZero).2.toOption.map MixOut.order ≠
      (create_extended_mix wStems "mix_v2.mp3" 1 0 true 120 wGrid wMain
        wDrawsId).2.toOption.map MixOut.order := by
  decide

/-- Claim C1 (amended): the trailing `_vN` version is parsed from the output
name (default 1) and recorded in the result, but it does not seed the
shuffle: the ShuffleOrder is a function of the entropy draws alone, so two
runs with the same draws produce identical orders whatever the output names
(and hence whatever the version-derived values). -/
theorem shuffle_order_ignores_version (components : Role → AudioSeg)
    (p1 p2 : String) (ib ob : Nat) (pv : Bool) (tempo : Nat) (grid : List Nat)
    (main : AudioSeg) (d : Nat → Nat) :
    (create_extended_mix components p1 ib ob pv tempo grid main d).2.toOption.map
        MixOut.order =
      (create_extended_mix components p2 ib ob pv tempo grid main d).2.toOption.map
        MixOut.order ∧
    (create_extended_mix components p1 ib ob pv tempo grid main d).2.toOption.map
        MixOut.version =
      (create_extended_mix components p1 ib ob pv tempo grid main d).2.toOption.map
        (fun _ => parse_version p1) := by
  constructor <;>
  · simp only [create_extended_mix]
    by_cases hb : grid.length <
      ib * DEFAULT_BEATS_PER_BAR + ob * DEFAULT_BEATS_PER_BAR + MINIMUM_BEATS_BUFFER
    · simp only [if_pos hb]
      try rfl
    · simp only [if_neg hb]
      rcases hc : crossfadeAppend
          (fade_in (concatAll ((shuffledIntro components ib grid d).map fun p => p.2)) 2000)
          main 500 with e | m <;> simp only [hc] <;> try rfl

/-- Claim C10: `analyze_audio_file` is total and always yields a record with
exactly the keys `format`, `duration`, `bpm`, `key`, `bitrate`; a primary
failure falls back to the pydub analysis, and a double failure returns the
defaults `0 / 0 / "Unknown" / 0` with the format from the path extension. -/
theorem analyze_audio_file_fallback_chain (file_path : String)
    (p : PrimaryData) (a : FallbackData) :
    analyze_audio_file file_path (some p) (some a) =
      { format := get_audio_format file_path, duration := p.duration,
        bpm := p.bpm, key := p.key, bitrate := p.bitrate } ∧
    analyze_audio_file file_path (some p) none =
      { format := get_audio_format file_path, duration := p.duration,
        bpm := p.bpm, key := p.key, bitrate := p.bitrate } ∧
    analyze_audio_file file_path none (some a) =
      { format := get_audio_format file_path, duration := a.lengthMs / 1000,
        bpm := 0, key := "Unknown", bitrate := a.bitrate } ∧
    analyze_audio_file file_path none none =
      { format := get_audio_format file_path, duration := 0, bpm := 0,
        key := "Unknown", bitrate := 0 } :=
  ⟨rfl, rfl, rfl, rfl⟩
